import Mathlib

/-!
Shallow embedding of the core of the `another-world` virtual machine
(`src/vm.rs`, `src/video.rs`, `src/sys.rs`): the cooperative thread
scheduler, the opcode interpreter state, the call-stack discipline, the
frame-pacing present operation, and the video page manager / polygon
vertex decoder.

Machine integers are embedded as `Nat` / `Int` with explicit `% 2^w`
wrapping where the Rust code can wrap.  Rust panics (array index out of
bounds, explicit `panic!`, failed `assert!`) are embedded as `Except`
errors.  Code of the repository that lives in files absent from `src/`
(`resource.rs` byte/word reads, `buffer.rs`) is modelled from the spec
and marked as such in doc comments.
-/

namespace AnotherWorld

/-- Constants from the top of `vm.rs`. -/
abbrev NUM_VARIABLES : Nat := 256

/-- Number of script threads (`vm.rs`). -/
abbrev NUM_THREADS : Nat := 64

/-- Sentinel stored in a pending redirect meaning "deactivate the thread". -/
abbrev SET_INACTIVE_THREAD : Nat := 0xfffe

/-- Sentinel program counter meaning "thread inactive". -/
abbrev INACTIVE_THREAD : Nat := 0xffff

/-- Capacity of the call stack (`vm.rs`, also the length of
`script_stack_calls`). -/
abbrev STACK_SIZE : Nat := 0xff

/-- Reserved variable slot holding the frame-pacing slice count. -/
abbrev VM_VARIABLE_PAUSE_SLICES : Nat := 0xff

/-- Maximum vertex count accepted by `Polygon::read_vertices` (`video.rs`). -/
abbrev MAX_POINTS : Nat := 50

/-- Size in bytes of one video page (`video.rs`). -/
abbrev VID_PAGE_SIZE : Nat := 320 * 200 / 2

/-- 2^64, the modulus of Rust `u64` arithmetic. -/
abbrev U64 : Nat := 2 ^ 64

/-- A Rust panic / fatal error of the embedded code. -/
inductive VMError where
  | indexOutOfBounds : VMError
  | stackOverflow : VMError
  | stackUnderflow : VMError
  | assertionFailed : VMError
deriving DecidableEq

/-- One script thread (`struct Thread` in `vm.rs`).  `pc` is a word
offset into the bytecode segment (`INACTIVE_THREAD` when inactive). -/
structure Thread where
  pc : Nat
  requested_pc_offset : Option Nat
  is_channel_active_current : Bool
  is_channel_active_requested : Bool
deriving DecidableEq

/-- `Thread::new()` from `vm.rs`. -/
def Thread.new : Thread :=
  { pc := INACTIVE_THREAD
    requested_pc_offset := none
    is_channel_active_current := false
    is_channel_active_requested := false }

/-- The resource memory arena with its segment base offsets.  Modelled
from the spec: `resource.rs` is not under `src/`; the spec (section 3,
"Resource segments", and 4.3) describes a flat byte arena with named
segment base offsets. -/
structure Resource where
  memory : Nat → Nat
  seg_bytecode : Nat
  seg_cinematic : Nat
  seg_video2 : Nat
  seg_palettes : Nat

/-- Modelled from the spec: `resource.rs` (`read_byte`) is not under
`src/`; section 4.2 specifies an unsigned-byte fetch. -/
def Resource.read_byte (r : Resource) (p : Nat) : Nat :=
  r.memory p % 256

/-- Modelled from the spec: `resource.rs` (`read_word`) is not under
`src/`; section 4.2 specifies a big-endian unsigned-word fetch. -/
def Resource.read_word (r : Resource) (p : Nat) : Nat :=
  r.read_byte p * 256 + r.read_byte (p + 1)

/-- The mutable interpreter / scheduler state of `struct VirtualMachine`
(`vm.rs`).  The 256 variables are signed 16-bit, embedded as `Int`; the
call-stack array is embedded as a function together with the explicit
`STACK_SIZE` bound checked where the Rust array indexing would check it.
The source field `variables` is renamed `vars` because `variables` is a
reserved word in Lean 4. -/
structure VMState where
  vars : Nat → Int
  threads : Fin NUM_THREADS → Thread
  resource : Resource
  requested_next_part : Option Nat
  script_ptr : Nat
  stack_ptr : Nat
  goto_next_thread : Bool
  script_stack_calls : Nat → Nat
  last_timestamp : Nat

/-- `VirtualMachine::fetch_byte`: read a byte at the cursor and advance. -/
def VMState.fetch_byte (s : VMState) : Nat × VMState :=
  (s.resource.read_byte s.script_ptr, { s with script_ptr := s.script_ptr + 1 })

/-- `VirtualMachine::fetch_word`: read a big-endian word at the cursor and
advance by two. -/
def VMState.fetch_word (s : VMState) : Nat × VMState :=
  (s.resource.read_word s.script_ptr, { s with script_ptr := s.script_ptr + 2 })

/-- `VirtualMachine::op_call` (`vm.rs` lines 231-241).  The Rust code
stores the return offset into `script_stack_calls[stack_ptr]` BEFORE
checking `stack_ptr == STACK_SIZE`; since the array has length
`STACK_SIZE`, a write at `stack_ptr = STACK_SIZE` panics with an
index-out-of-bounds error before the `panic!("Stack overflow")` line can
run.  The embedding keeps that order: the bounds check of the write
first, then the (dead) overflow check. -/
def op_call (s : VMState) : Except VMError VMState :=
  let (offset, s) := s.fetch_word
  if s.stack_ptr < STACK_SIZE then
    let s := { s with
      script_stack_calls :=
        Function.update s.script_stack_calls s.stack_ptr
          (s.script_ptr - s.resource.seg_bytecode) }
    if s.stack_ptr = STACK_SIZE then
      .error .stackOverflow
    else
      .ok { s with
        stack_ptr := s.stack_ptr + 1
        script_ptr := s.resource.seg_bytecode + offset }
  else
    .error .indexOutOfBounds

/-- `VirtualMachine::op_ret` (`vm.rs` lines 243-250): pop on empty stack
panics ("Stack underflow!"); otherwise decrement and jump back. -/
def op_ret (s : VMState) : Except VMError VMState :=
  if s.stack_ptr = 0 then
    .error .stackUnderflow
  else
    let sp := s.stack_ptr - 1
    .ok { s with
      stack_ptr := sp
      script_ptr := s.resource.seg_bytecode + s.script_stack_calls sp }

/-- `VirtualMachine::op_jmp` (`vm.rs`): absolute jump inside the bytecode
segment. -/
def op_jmp (s : VMState) : VMState :=
  let (pc_offset, s) := s.fetch_word
  { s with script_ptr := s.resource.seg_bytecode + pc_offset }

/-- `VirtualMachine::op_set_set_vect` (`vm.rs` lines 263-268): stage a
redirect offset into the target thread's pending slot.  A thread id of
64 or more would be an out-of-bounds index panic in the Rust code. -/
def op_set_set_vect (s : VMState) : Except VMError VMState :=
  let (thread_id, s) := s.fetch_byte
  let (pc_offset_requested, s) := s.fetch_word
  if h : thread_id < NUM_THREADS then
    .ok { s with
      threads := Function.update s.threads ⟨thread_id, h⟩
        { s.threads ⟨thread_id, h⟩ with
          requested_pc_offset := some pc_offset_requested } }
  else
    .error .indexOutOfBounds

/-- `VirtualMachine::init_for_part` (`vm.rs` lines 90-107).  The loader's
`Resource::setup_part` lives in `resource.rs`, which is not under `src/`;
it is passed in as the external-collaborator function the spec describes
(section 6, Loader). -/
def init_for_part (setup_part : Nat → Resource → Resource)
    (part_id : Nat) (s : VMState) : VMState :=
  let s := { s with vars := Function.update s.vars 0xe4 0x14 }
  let s := { s with resource := setup_part part_id s.resource }
  let threads : Fin NUM_THREADS → Thread := fun _ => Thread.new
  let threads := Function.update threads ⟨0, by decide⟩ { Thread.new with pc := 0 }
  { s with threads := threads }

/-- Per-thread body of the loop in `VirtualMachine::check_thread_requests`
(`vm.rs` lines 117-129): copy the requested flag into the current flag,
then apply a pending redirect (mapping the `SET_INACTIVE_THREAD` sentinel
to `INACTIVE_THREAD`) and clear it. -/
def commitThread (t : Thread) : Thread :=
  let t := { t with is_channel_active_current := t.is_channel_active_requested }
  match t.requested_pc_offset with
  | some pc_offset =>
      { t with
        pc := if pc_offset = SET_INACTIVE_THREAD then INACTIVE_THREAD else pc_offset
        requested_pc_offset := none }
  | none => t

/-- `VirtualMachine::check_thread_requests` (`vm.rs` lines 109-130):
apply a requested part switch, then commit every thread's staged
requests.  The Rust loop touches only `threads[thread_id]` in each
iteration; it is embedded as a fold of `commitThread` over the thread
ids in increasing order. -/
def check_thread_requests (setup_part : Nat → Resource → Resource)
    (s : VMState) : VMState :=
  let s :=
    match s.requested_next_part with
    | some part => { init_for_part setup_part part s with requested_next_part := none }
    | none => s
  { s with
    threads := (List.finRange NUM_THREADS).foldl
      (fun acc thread_id => Function.update acc thread_id (commitThread (acc thread_id)))
      s.threads }

/-- Loop body of `VirtualMachine::host_frame` (`vm.rs` lines 133-157) for
one thread id.  The interpreter slice `execute_thread` dispatches the
whole opcode set (including external video / platform calls), so it is
abstracted as the function `exec`; the scheduler-visible protocol around
it is embedded exactly: skip when the channel-active flag is set, skip
when the stored program counter is the inactive sentinel, otherwise run
`exec` from cursor `seg_bytecode + pc` with the stack pointer reset to
zero, and persist `script_ptr - seg_bytecode` back into the thread. -/
def host_frame_step (exec : VMState → VMState) (s : VMState)
    (thread_id : Fin NUM_THREADS) : VMState :=
  if (s.threads thread_id).is_channel_active_current then
    s
  else
    let n := (s.threads thread_id).pc
    if n ≠ INACTIVE_THREAD then
      let s1 : VMState :=
        { s with
          script_ptr := s.resource.seg_bytecode + n
          stack_ptr := 0
          goto_next_thread := false }
      let s2 := exec s1
      { s2 with
        threads := Function.update s2.threads thread_id
          { s2.threads thread_id with
            pc := s2.script_ptr - s2.resource.seg_bytecode } }
    else
      s

/-- `VirtualMachine::host_frame` (`vm.rs` lines 132-158): the loop over
all thread ids in increasing order. -/
def host_frame (exec : VMState → VMState) (s : VMState) : VMState :=
  (List.finRange NUM_THREADS).foldl (host_frame_step exec) s

/-- Reinterpret an unsigned 16-bit value as Rust `i16` (`as i16`). -/
def u16_to_i16 (w : Nat) : Int :=
  if w < 0x8000 then (w : Int) else (w : Int) - 0x10000

/-- Wrap an integer into the signed 16-bit range, the effect of Rust
`i16` wrapping arithmetic. -/
def wrap16 (v : Int) : Int :=
  (v + 0x8000) % 0x10000 - 0x8000

/-- Rust `u64` wrapping subtraction `a - b` (release semantics; a debug
build panics on overflow instead). -/
def u64_wrapping_sub (a b : Nat) : Nat :=
  (U64 + a % U64 - b % U64) % U64

/-- Rust `i16 as u64` (sign extension into the unsigned 64-bit range). -/
def i16_as_u64 (v : Int) : Nat :=
  (v % (U64 : Int)).toNat

/-- The comparator table of `VirtualMachine::op_cond_jmp` (`vm.rs` lines
296-307), selected by `opcode & 7`: 0 equal, 1 not-equal, 2 greater,
3 greater-or-equal, 4 less, 5 less-or-equal; 6 and 7 log a warning and
evaluate to false. -/
def cond_jmp_expr (cond : Nat) (b a : Int) : Bool :=
  match cond with
  | 0 => decide (b = a)
  | 1 => decide (b ≠ a)
  | 2 => decide (a < b)
  | 3 => decide (a ≤ b)
  | 4 => decide (b < a)
  | 5 => decide (b ≤ a)
  | _ => false

/-- `VirtualMachine::op_cond_jmp` (`vm.rs` lines 281-313).  The operand
is selected by the high bits of the fetched opcode byte (`0x80`: another
variable; else `0x40`: 16-bit immediate; else: 8-bit immediate), the
comparator by its low three bits; invalid comparator values 6 and 7 log
a warning and evaluate to false. -/
def op_cond_jmp (s : VMState) : VMState :=
  let fb1 := s.fetch_byte
  let opcode := fb1.1
  let s := fb1.2
  let fb2 := s.fetch_byte
  let var := fb2.1
  let s := fb2.2
  let b := s.vars var
  let a_s : Int × VMState :=
    if 0 < opcode &&& 0x80 then
      let (var2, s) := s.fetch_byte
      (s.vars var2, s)
    else if 0 < opcode &&& 0x40 then
      let (w, s) := s.fetch_word
      (u16_to_i16 w, s)
    else
      let (c, s) := s.fetch_byte
      ((c : Int), s)
  let a := a_s.1
  let s := a_s.2
  let expr : Bool := cond_jmp_expr (opcode &&& 7) b a
  if expr = true then
    op_jmp s
  else
    (s.fetch_word).2

/-- `VirtualMachine::op_blit_frame_buffer` (`vm.rs` lines 350-367).
The two `sys.get_timestamp()` calls are passed in as `now1` / `now2`
(the platform collaborator of spec section 6); the returned `Nat` is the
number of milliseconds handed to `sys.sleep` (`0` when the `time_to_sleep
> 0` branch is not taken).  `delay` and `time_to_sleep` are the Rust
`u64` subtractions, which wrap (and would panic in a debug build);
`variables[0xff] as u64` sign-extends.  The final `video.update_display`
call crosses into the external display collaborator and has no effect on
the embedded state. -/
def op_blit_frame_buffer (now1 now2 : Nat) (s : VMState) : VMState × Nat :=
  let (_page_id, s) := s.fetch_byte
  let delay := u64_wrapping_sub now1 s.last_timestamp
  let time_to_sleep :=
    u64_wrapping_sub (i16_as_u64 (s.vars VM_VARIABLE_PAUSE_SLICES) * 20 % U64) delay
  let sleep_ms := if 0 < time_to_sleep then time_to_sleep else 0
  let s := { s with
    last_timestamp := now2
    vars := Function.update s.vars 0xf7 0 }
  (s, sleep_ms)

/-- A 2-D point (`video.rs`). -/
structure Point where
  x : Int
  y : Int
deriving DecidableEq

/-- A reading cursor over a byte slice.  Modelled from the spec:
`buffer.rs` is not under `src/`; the uses in `vm.rs` / `video.rs`
(`Buffer::with_offset(&memory[segment..], offset)`, `fetch_byte`) show a
byte source plus an auto-advancing offset. -/
structure Buffer where
  data : Nat → Nat
  offset : Nat

/-- Byte `k` positions after the buffer's current offset; `fetch_byte`
on the modelled buffer reads `byte 0` and advances. -/
def Buffer.byte (buffer : Buffer) (k : Nat) : Nat :=
  buffer.data (buffer.offset + k) % 256

/-- A decoded polygon (`video.rs`). -/
structure Polygon where
  bbw : Nat
  bbh : Nat
  points : List Point

/-- `Polygon::read_vertices` (`video.rs` lines 21-35): bounding box bytes
scaled by `zoom/64` in (wrapping) `u16` arithmetic, then a vertex count
byte asserted even and below `MAX_POINTS`, then that many `(x, y)` byte
pairs each scaled by `zoom/64` in (wrapping) `i16` arithmetic with
truncating division.  The failed `assert!` is the `assertionFailed`
error.  The source's sequential `fetch_byte` calls read the header at
offsets 0-2 and pair `j` at offsets `3 + 2j`, `4 + 2j`. -/
def Polygon.read_vertices (buffer : Buffer) (zoom : Nat) : Except VMError Polygon :=
  let bbw := buffer.byte 0 * zoom % 0x10000 / 64
  let bbh := buffer.byte 1 * zoom % 0x10000 / 64
  let num_points := buffer.byte 2
  if num_points &&& 1 = 0 ∧ num_points < MAX_POINTS then
    .ok
      { bbw := bbw
        bbh := bbh
        points := (List.range num_points).map fun j =>
          { x := Int.tdiv (wrap16 ((buffer.byte (3 + 2 * j) : Int) * u16_to_i16 zoom)) 64
            y := Int.tdiv (wrap16 ((buffer.byte (4 + 2 * j) : Int) * u16_to_i16 zoom)) 64 } }
  else
    .error .assertionFailed

/-- One video page (`video.rs`): a fixed-size byte buffer. -/
structure Page where
  data : Fin VID_PAGE_SIZE → Nat

/-- `Page::new()` (`video.rs`). -/
def Page.new : Page :=
  { data := fun _ => 0 }

/-- `struct Video` (`video.rs`): four pages and three page pointers. -/
structure Video where
  pages : Fin 4 → Page
  cur_page_ptr1 : Nat
  cur_page_ptr2 : Nat
  cur_page_ptr3 : Nat

/-- `Video::new()` (`video.rs`). -/
def Video.new : Video :=
  { pages := fun _ => Page.new
    cur_page_ptr1 := 2
    cur_page_ptr2 := 2
    cur_page_ptr3 := 1 }

/-- `Video::get_page_id` (`video.rs` lines 136-147): ids 0-3 map to
themselves, `0xff` to the third page pointer, `0xfe` to the second, and
anything else logs a warning and falls back to page 0. -/
def Video.get_page_id (v : Video) (page_id : Nat) : Nat :=
  if page_id ≤ 3 then page_id
  else if page_id = 0xff then v.cur_page_ptr3
  else if page_id = 0xfe then v.cur_page_ptr2
  else 0

/-- `Video::get_page` (`video.rs` lines 149-151): returns a COPY of the
resolved page (`Page` is `Copy` and `get_page` returns it by value).  A
resolved index outside 0-3 (possible only through a corrupted page
pointer) would be an index panic, embedded as `none`. -/
def Video.get_page (v : Video) (page_id : Nat) : Option Page :=
  if h : v.get_page_id page_id < 4 then
    some (v.pages ⟨v.get_page_id page_id, h⟩)
  else
    none

/-- The byte `(color << 4) | color` computed by `Video::fill_video_page`
(`u8` arithmetic: the shift discards high bits). -/
def fill_byte (color : Nat) : Nat :=
  Nat.lor (color <<< 4 % 256) (color % 256)

/-- `Video::fill_video_page` (`video.rs` lines 72-79).  The Rust method
takes `&self` (an immutable borrow) and `get_page` returns the page BY
VALUE, so the fill loop mutates a local copy that is dropped when the
method returns: the stored `pages` array is never written.  The
embedding therefore computes the local copy and returns the video state
unchanged, exactly as the source does. -/
def Video.fill_video_page (v : Video) (page_id : Nat) (color : Nat) : Video :=
  let _page : Option Page := v.get_page page_id
  let _c := fill_byte color
  let _filled_local_copy : Page := { data := fun _ => fill_byte color }
  v

/-- `VirtualMachine::op_draw_poly_background` (`vm.rs` lines 478-505).
Returns the state after the three fetches together with the buffer
offset and the `Point` handed to `Video::read_and_draw_polygon` (whose
fill routines are `unimplemented!` stubs in the source). -/
def op_draw_poly_background (val : Nat) (s : VMState) : VMState × Nat × Point :=
  let (lsb, s) := s.fetch_byte
  let msb := val &&& 0x7f
  let offset := (msb <<< 8 ||| lsb) * 2
  let (xb, s) := s.fetch_byte
  let (yb, s) := s.fetch_byte
  let x : Int := (xb : Int)
  let y : Int := (yb : Int)
  let h : Int := y - 199
  let y := if 0 < h then (199 : Int) else y
  let x := if 0 < h then x + h else x
  (s, offset, { x := x, y := y })

/-- The spec's "current-runnable flag" of a thread.  The source field
`is_channel_active_current` marks a frozen channel — a SET flag makes
`host_frame` skip the thread — so a thread is currently runnable exactly
when the flag is clear. -/
def currentRunnable (t : Thread) : Bool :=
  !t.is_channel_active_current

/-- Whether `host_frame` would execute this thread's slice: the thread is
currently runnable and its stored program counter is not the inactive
sentinel. -/
def threadRuns (s : VMState) (thread_id : Fin NUM_THREADS) : Bool :=
  currentRunnable (s.threads thread_id)
    && decide ((s.threads thread_id).pc ≠ INACTIVE_THREAD)

/-- A call-stack instruction, for reasoning about sequences of `op_call`
and `op_ret`. -/
inductive CallRetOp where
  | call : CallRetOp
  | ret : CallRetOp

/-- Execute one call-stack instruction. -/
def exec_op : CallRetOp → VMState → Except VMError VMState
  | .call, s => op_call s
  | .ret, s => op_ret s

/-- Execute a sequence of call-stack instructions, stopping at the first
fatal error. -/
def exec_ops : List CallRetOp → VMState → Except VMError VMState
  | [], s => .ok s
  | o :: l, s =>
    match exec_op o s with
    | .ok s1 => exec_ops l s1
    | .error e => .error e

/-- Sequences of call-stack instructions whose `call`/`ret` pairs are
balanced. -/
inductive Balanced : List CallRetOp → Prop where
  | nil : Balanced []
  | wrap {l : List CallRetOp} :
      Balanced l → Balanced (CallRetOp.call :: (l ++ [CallRetOp.ret]))
  | append {l1 l2 : List CallRetOp} :
      Balanced l1 → Balanced l2 → Balanced (l1 ++ l2)

/-- An all-zero resource arena for concrete evaluations. -/
def res0 : Resource :=
  { memory := fun _ => 0
    seg_bytecode := 0
    seg_cinematic := 0
    seg_video2 := 0
    seg_palettes := 0 }

/-- A freshly initialised machine state over `res0` (all variables zero,
all threads inactive, empty stack), mirroring `VirtualMachine::new`
without the random seed and protection-bypass writes. -/
def base_state : VMState :=
  { vars := fun _ => 0
    threads := fun _ => Thread.new
    resource := res0
    requested_next_part := none
    script_ptr := 0
    stack_ptr := 0
    goto_next_thread := false
    script_stack_calls := fun _ => 0
    last_timestamp := 0 }

/-- A state whose call stack is at full capacity (depth 255). -/
def full_stack_state : VMState :=
  { base_state with stack_ptr := STACK_SIZE }

/-- A state with the cursor at offset 10 of a zero arena, for the
call/return round trip evaluation. -/
def rt_state : VMState :=
  { base_state with script_ptr := 10 }

/-- A state about to present: pacing variable 1 (20 ms slice), previous
present at timestamp 0. -/
def blit_state_late : VMState :=
  { base_state with vars := Function.update (fun _ => 0) VM_VARIABLE_PAUSE_SLICES 1 }

/-- Same, but the previous present is recorded at timestamp 100 so a
current timestamp of 40 is a regression. -/
def blit_state_regress : VMState :=
  { blit_state_late with last_timestamp := 100 }

/-- Bytecode for `op_cond_jmp`: comparator byte 0 (equal), variable 0,
8-bit immediate 5, jump word 0x1234. -/
def cond_mem_eq : Nat → Nat := fun p =>
  if p = 2 then 5 else if p = 3 then 0x12 else if p = 4 then 0x34 else 0

/-- Same bytecode with comparator byte 2 (greater). -/
def cond_mem_gt : Nat → Nat := fun p =>
  if p = 0 then 2 else cond_mem_eq p

/-- State executing the "equal" conditional jump with variable 0 = 5. -/
def cond_state_eq : VMState :=
  { base_state with
    vars := fun _ => 5
    resource := { res0 with memory := cond_mem_eq } }

/-- State executing the "greater" conditional jump with variable 0 = 5. -/
def cond_state_gt : VMState :=
  { cond_state_eq with
    resource := { res0 with memory := cond_mem_gt } }

/-- Vertex data whose byte at position `i` is `i`: bounding box bytes 0
and 1, vertex count 2, then points (3,4) and (5,6). -/
def vert_buffer : Buffer :=
  { data := fun i => i, offset := 0 }

/-! ## Theorems -/

/-- A fetched byte is below 256. -/
lemma Buffer.byte_lt (buffer : Buffer) (k : Nat) : buffer.byte k < 256 :=
  Nat.mod_lt _ (by decide)

/-- Truncating `Int` division of natural casts is natural division. -/
lemma int_tdiv_coe (a b : Nat) : Int.tdiv (a : Int) (b : Int) = ((a / b : Nat) : Int) :=
  rfl

/-- `wrap16` is the identity on small non-negative values. -/
lemma wrap16_coe_of_lt {m : Nat} (hm : m < 32768) : wrap16 (m : Int) = (m : Int) := by
  unfold wrap16
  omega

/-- C5: the claim that `fill_video_page(page_id, color)` sets every byte
of the stored page to the color packed into both nibbles is FALSE of the
code: the method takes `&self` and `get_page` returns the page by value,
so the fill loop writes a local copy that is dropped — the stored pages
are unchanged for every page id and color.  The packed byte itself is
computed correctly (`fill_byte 6 = 0x66`), but after
`fill(page=1, color=6)` byte 0 of stored page 1 still holds 0, not 0x66. -/
theorem fill_video_page_discards_fill :
    (∀ (v : Video) (page_id color : Nat), v.fill_video_page page_id color = v)
    ∧ fill_byte 6 = 0x66
    ∧ ((Video.new.fill_video_page 1 6).pages ⟨1, by decide⟩).data ⟨0, by decide⟩ = 0
    ∧ (0 : Nat) ≠ 0x66 :=
  ⟨fun _ _ _ => rfl, by decide, rfl, by decide⟩

/-- C9: page-id resolution.  Ids 0-3 resolve to themselves, 0xFE to the
second alias pointer (`cur_page_ptr2`), 0xFF to the third
(`cur_page_ptr3`), and every other id falls back to page 0, independent
of the alias pointers' values. -/
theorem get_page_id_resolution (v : Video) :
    (∀ page_id : Nat, page_id ≤ 3 → v.get_page_id page_id = page_id)
    ∧ v.get_page_id 0xfe = v.cur_page_ptr2
    ∧ v.get_page_id 0xff = v.cur_page_ptr3
    ∧ (∀ page_id : Nat, 3 < page_id → page_id ≠ 0xfe → page_id ≠ 0xff →
        v.get_page_id page_id = 0) := by
  refine ⟨fun p hp => ?_, ?_, ?_, fun p hp h1 h2 => ?_⟩
  · rw [Video.get_page_id, if_pos hp]
  · rw [Video.get_page_id]
    norm_num
  · rw [Video.get_page_id]
    norm_num
  · rw [Video.get_page_id, if_neg (by omega), if_neg h2, if_neg h1]

/-- Witness for C9 at concrete ids 2 and 9. -/
theorem get_page_id_resolution_witness :
    Video.new.get_page_id 2 = 2 ∧ Video.new.get_page_id 9 = 0 :=
  ⟨(get_page_id_resolution Video.new).1 2 (by decide),
   (get_page_id_resolution Video.new).2.2.2 9 (by decide) (by decide) (by decide)⟩

/-- C10: in `op_draw_poly_background` the fetched y byte is clamped to
199 with the excess added to x; y values up to 199 leave both
coordinates unchanged.  The point below is the one handed to
`Video::read_and_draw_polygon`. -/
theorem draw_poly_background_y_clamp (val : Nat) (s : VMState) :
    (op_draw_poly_background val s).2.2 =
      (if s.resource.read_byte (s.script_ptr + 2) ≤ 199 then
        { x := (s.resource.read_byte (s.script_ptr + 1) : Int)
          y := (s.resource.read_byte (s.script_ptr + 2) : Int) }
      else
        { x := (s.resource.read_byte (s.script_ptr + 1) : Int)
            + ((s.resource.read_byte (s.script_ptr + 2) : Int) - 199)
          y := (199 : Int) } : Point) := by
  simp only [op_draw_poly_background, VMState.fetch_byte]
  have e2 : s.script_ptr + 1 + 1 = s.script_ptr + 2 := by omega
  rw [e2]
  by_cases h : s.resource.read_byte (s.script_ptr + 2) ≤ 199
  · rw [if_pos h, if_neg (by omega), if_neg (by omega)]
  · rw [if_neg h, if_pos (by omega), if_pos (by omega)]

/-- C4 (code bug): `op_blit_frame_buffer` computes both the elapsed time
and the remaining budget with raw `u64` subtraction.  With the pacing
variable at 1 (a 20 ms slice), a previous present at 0 and a current
timestamp of 100 — the call finished LATE, so the claim requires no
sleep — the wrapped `time_to_sleep = 20 - 100` is `2^64 - 80 > 0` and
the code sleeps for it.  With a timestamp regression (now 40, previous
100) the claim requires the elapsed time to be treated as 0 (a full
20 ms sleep); the code sleeps 80 ms instead.  (A debug build panics on
the overflow instead of wrapping.) -/
theorem blit_frame_pacing_underflow :
    (op_blit_frame_buffer 100 100 blit_state_late).2 = 2 ^ 64 - 80
    ∧ (op_blit_frame_buffer 40 40 blit_state_regress).2 = 80 := by
  constructor <;> decide

/-- C3 (code bug): `op_call` with the stack at full capacity (depth 255)
does abort, but with the index-out-of-bounds panic of the array write
`script_stack_calls[stack_ptr] = ...`, which the source places BEFORE
its `stack_ptr == STACK_SIZE` check — the `panic!("Stack overflow")`
diagnostic is unreachable on every input.  `op_ret` on an empty stack
aborts with the stack-underflow diagnostic as claimed, and below
capacity / above zero neither operation aborts. -/
theorem call_ret_stack_guard_bug :
    (∀ s : VMState, op_call s ≠ .error .stackOverflow)
    ∧ op_call full_stack_state = .error .indexOutOfBounds
    ∧ op_ret base_state = .error .stackUnderflow
    ∧ (∀ s : VMState, (∃ s1, op_call s = .ok s1) ↔ s.stack_ptr < STACK_SIZE)
    ∧ (∀ s : VMState, (∃ s1, op_ret s = .ok s1) ↔ 0 < s.stack_ptr) := by
  refine ⟨fun s => ?_, rfl, rfl, fun s => ⟨fun hex => ?_, fun hlt => ?_⟩,
    fun s => ⟨fun hex => ?_, fun hpos => ?_⟩⟩
  · simp only [op_call, VMState.fetch_word]
    split
    · split
      · omega
      · simp
    · simp
  · obtain ⟨s1, hs1⟩ := hex
    simp only [op_call, VMState.fetch_word] at hs1
    by_contra hge
    rw [if_neg hge] at hs1
    cases hs1
  · simp only [op_call, VMState.fetch_word]
    rw [if_pos hlt, if_neg (by omega)]
    exact ⟨_, rfl⟩
  · obtain ⟨s1, hs1⟩ := hex
    simp only [op_ret] at hs1
    by_contra hz
    rw [if_pos (by omega)] at hs1
    cases hs1
  · simp only [op_ret]
    rw [if_neg (by omega)]
    exact ⟨_, rfl⟩

/-- Witness for C3: from the empty stack a call succeeds, and from depth
one a return succeeds. -/
theorem call_ret_stack_guard_bug_witness :
    (∃ s1, op_call base_state = .ok s1)
    ∧ (∃ s1, op_ret full_stack_state = .ok s1) :=
  ⟨(call_ret_stack_guard_bug.2.2.2.1 base_state).mpr (by decide),
   (call_ret_stack_guard_bug.2.2.2.2 full_stack_state).mpr (by decide)⟩

/-- C6: `op_cond_jmp`'s operand is chosen by the opcode byte's high bits
in priority order (0x80: another variable, else 0x40: 16-bit immediate,
else: 8-bit immediate), the comparator by its low 3 bits via
`cond_jmp_expr`; a true comparison jumps to the following word, a false
one fetches and discards it.  In particular for variable value 5 against
operand 5, comparator 0 (equal) jumps and comparator 2 (greater) does
not. -/
theorem cond_jmp_operand_and_comparator (s : VMState) :
    (op_cond_jmp s =
      (let opcode := s.resource.read_byte s.script_ptr
       let b := s.vars (s.resource.read_byte (s.script_ptr + 1))
       let a : Int :=
         if 0 < opcode &&& 0x80 then
           s.vars (s.resource.read_byte (s.script_ptr + 2))
         else if 0 < opcode &&& 0x40 then
           u16_to_i16 (s.resource.read_word (s.script_ptr + 2))
         else
           (s.resource.read_byte (s.script_ptr + 2) : Int)
       let len : Nat :=
         if 0 < opcode &&& 0x80 then 3 else if 0 < opcode &&& 0x40 then 4 else 3
       if cond_jmp_expr (opcode &&& 7) b a = true then
         { s with script_ptr :=
             s.resource.seg_bytecode + s.resource.read_word (s.script_ptr + len) }
       else
         { s with script_ptr := s.script_ptr + len + 2 }))
    ∧ cond_jmp_expr 0 5 5 = true
    ∧ cond_jmp_expr 2 5 5 = false
    ∧ (op_cond_jmp cond_state_eq).script_ptr = 0x1234
    ∧ (op_cond_jmp cond_state_gt).script_ptr = 5 := by
  refine ⟨?_, by decide, by decide, by decide, by decide⟩
  simp only [op_cond_jmp, op_jmp, VMState.fetch_byte, VMState.fetch_word]
  have e2 : s.script_ptr + 1 + 1 = s.script_ptr + 2 := by omega
  have e3 : s.script_ptr + 1 + 1 + 1 = s.script_ptr + 3 := by omega
  have e4 : s.script_ptr + 1 + 1 + 2 = s.script_ptr + 4 := by omega
  by_cases h80 : 0 < s.resource.read_byte s.script_ptr &&& 0x80
  · simp only [if_pos h80, e2, e3]
  · by_cases h40 : 0 < s.resource.read_byte s.script_ptr &&& 0x40
    · simp only [if_neg h80, if_pos h40, e2, e4]
    · simp only [if_neg h80, if_neg h40, e2, e3]

/-- C8: `Polygon::read_vertices` fails fatally exactly when the fetched
vertex count is odd or not below 50; for every accepted count the
bounding-box bytes and every coordinate byte are scaled by `zoom / 64`
with integer division (stated here for zoom factors up to 128, where the
16-bit intermediate products cannot wrap). -/
theorem read_vertices_guard_and_scaling (buffer : Buffer) (zoom : Nat)
    (hz : zoom ≤ 128) :
    ((∃ p, Polygon.read_vertices buffer zoom = .ok p) ↔
      buffer.byte 2 % 2 = 0 ∧ buffer.byte 2 < 50)
    ∧ (∀ p, Polygon.read_vertices buffer zoom = .ok p →
        p.bbw = buffer.byte 0 * zoom / 64
        ∧ p.bbh = buffer.byte 1 * zoom / 64
        ∧ p.points.length = buffer.byte 2
        ∧ (∀ j, j < buffer.byte 2 →
            p.points[j]? = some
              { x := ((buffer.byte (3 + 2 * j) * zoom / 64 : Nat) : Int)
                y := ((buffer.byte (4 + 2 * j) * zoom / 64 : Nat) : Int) })) := by
  have hzz : u16_to_i16 zoom = (zoom : Int) := by
    unfold u16_to_i16
    rw [if_pos (by omega)]
  have hsmall : ∀ k : Nat, buffer.byte k * zoom ≤ 255 * 128 := fun k =>
    Nat.mul_le_mul (by have := buffer.byte_lt k; omega) hz
  have hpt : ∀ k : Nat,
      Int.tdiv (wrap16 ((buffer.byte k : Int) * u16_to_i16 zoom)) 64
        = ((buffer.byte k * zoom / 64 : Nat) : Int) := by
    intro k
    rw [hzz, ← Nat.cast_mul, wrap16_coe_of_lt (by have := hsmall k; omega)]
    exact int_tdiv_coe _ _
  constructor
  · constructor
    · rintro ⟨p, hp⟩
      rw [Polygon.read_vertices] at hp
      by_cases hc : buffer.byte 2 &&& 1 = 0 ∧ buffer.byte 2 < MAX_POINTS
      · exact ⟨by rw [← Nat.and_one_is_mod]; exact hc.1, hc.2⟩
      · rw [if_neg hc] at hp
        cases hp
    · rintro ⟨h1, h2⟩
      have hc : buffer.byte 2 &&& 1 = 0 ∧ buffer.byte 2 < MAX_POINTS :=
        ⟨by rw [Nat.and_one_is_mod]; exact h1, h2⟩
      simp only [Polygon.read_vertices, if_pos hc]
      exact ⟨_, rfl⟩
  · intro p hp
    rw [Polygon.read_vertices] at hp
    by_cases hc : buffer.byte 2 &&& 1 = 0 ∧ buffer.byte 2 < MAX_POINTS
    · rw [if_pos hc] at hp
      injection hp with hp
      subst hp
      refine ⟨?_, ?_, ?_, ?_⟩
      · show buffer.byte 0 * zoom % 0x10000 / 64 = buffer.byte 0 * zoom / 64
        rw [Nat.mod_eq_of_lt (by have := hsmall 0; omega)]
      · show buffer.byte 1 * zoom % 0x10000 / 64 = buffer.byte 1 * zoom / 64
        rw [Nat.mod_eq_of_lt (by have := hsmall 1; omega)]
      · simp
      · intro j hj
        simp only [List.getElem?_map, List.getElem?_range hj, Option.map_some']
        rw [hpt, hpt]
    · rw [if_neg hc] at hp
      cases hp

/-- Witness for C8: an even vertex count of 2 below 50 decodes
successfully at zoom 64. -/
theorem read_vertices_guard_and_scaling_witness :
    ∃ p, Polygon.read_vertices vert_buffer 64 = .ok p :=
  ((read_vertices_guard_and_scaling vert_buffer 64 (by decide)).1).mpr (by decide)

/-- C1: one `host_frame` loop iteration.  A thread is skipped (the state
is untouched and the slice never runs) exactly when its current-runnable
flag is not set — i.e. the source's channel-active flag is set — or its
stored program counter is the inactive sentinel; otherwise the slice
`exec` starts from cursor `seg_bytecode + pc` with the call stack
pointer reset to zero, and the thread's stored program counter is then
set to the slice's final cursor minus the bytecode segment base.
`host_frame` itself folds this step over the thread ids in increasing
order. -/
theorem host_frame_runs_thread_slices (exec : VMState → VMState) (s : VMState)
    (thread_id : Fin NUM_THREADS) :
    host_frame exec s = (List.finRange NUM_THREADS).foldl (host_frame_step exec) s
    ∧ (currentRunnable (s.threads thread_id) = false
        ∨ (s.threads thread_id).pc = INACTIVE_THREAD →
        host_frame_step exec s thread_id = s)
    ∧ (currentRunnable (s.threads thread_id) = true →
        (s.threads thread_id).pc ≠ INACTIVE_THREAD →
        ∃ s2, s2 = exec { s with
            script_ptr := s.resource.seg_bytecode + (s.threads thread_id).pc
            stack_ptr := 0
            goto_next_thread := false }
          ∧ host_frame_step exec s thread_id =
            { s2 with
              threads := Function.update s2.threads thread_id
                ({ s2.threads thread_id with
                    pc := s2.script_ptr - s2.resource.seg_bytecode }) }) := by
  refine ⟨rfl, fun hskip => ?_, fun hrun hpc => ?_⟩
  · rw [host_frame_step]
    rcases hskip with hflag | hpc
    · rw [currentRunnable, Bool.not_eq_false'] at hflag
      rw [if_pos hflag]
    · by_cases hflag : (s.threads thread_id).is_channel_active_current
      · rw [if_pos hflag]
      · rw [if_neg hflag, if_neg (by simpa using hpc)]
  · rw [currentRunnable, Bool.not_eq_true'] at hrun
    refine ⟨_, rfl, ?_⟩
    rw [host_frame_step, if_neg (by simp [hrun]), if_pos (by simpa using hpc)]

/-- Witness for C1: on the fresh state every thread's program counter is
the inactive sentinel, so the step leaves the state unchanged. -/
theorem host_frame_runs_thread_slices_witness :
    host_frame_step id base_state ⟨0, by decide⟩ = base_state :=
  (host_frame_runs_thread_slices id base_state ⟨0, by decide⟩).2.1 (Or.inr rfl)

/-- Folding independent per-index updates over a duplicate-free index
list is a pointwise map on the listed indices. -/
lemma foldl_update_pointwise (g : Thread → Thread) :
    ∀ (l : List (Fin NUM_THREADS)), l.Nodup →
      ∀ (ts : Fin NUM_THREADS → Thread) (i : Fin NUM_THREADS),
        (l.foldl (fun acc j => Function.update acc j (g (acc j))) ts) i
          = if i ∈ l then g (ts i) else ts i := by
  intro l
  induction l with
  | nil =>
    intro _ ts i
    simp
  | cons a l ih =>
    intro hnd ts i
    rw [List.foldl_cons, ih (List.nodup_cons.mp hnd).2]
    by_cases hia : i = a
    · subst hia
      rw [if_neg (List.nodup_cons.mp hnd).1, Function.update_same,
        if_pos (List.mem_cons_self i l)]
    · simp only [Function.update_noteq hia]
      by_cases hil : i ∈ l
      · rw [if_pos hil, if_pos (List.mem_cons_of_mem a hil)]
      · rw [if_neg hil, if_neg (by simp [List.mem_cons, hia, hil])]

/-- With no pending part switch, `check_thread_requests` acts on every
thread as the per-thread commit `commitThread`. -/
lemma check_thread_requests_threads (setup_part : Nat → Resource → Resource)
    (s : VMState) (hnp : s.requested_next_part = none) (i : Fin NUM_THREADS) :
    (check_thread_requests setup_part s).threads i = commitThread (s.threads i) := by
  rw [check_thread_requests, hnp]
  show ((List.finRange NUM_THREADS).foldl
    (fun acc thread_id => Function.update acc thread_id (commitThread (acc thread_id)))
    s.threads) i = _
  rw [foldl_update_pointwise commitThread _ (List.nodup_finRange _) s.threads i,
    if_pos (List.mem_finRange i)]

/-- C2: two-phase commit of thread requests.  A successful
`op_set_set_vect` leaves every thread's program counter, current flag
and requested flag unchanged — in particular the run/skip decision of
every thread in the current frame is unchanged — and touches only the
target thread's pending-redirect slot, which it sets to the fetched
word.  The commit step `check_thread_requests` (with no part switch
pending) copies every thread's requested flag into its current flag
and, exactly when a pending redirect exists, installs it into the
program counter (mapping the deactivation sentinel 0xfffe to the
inactive sentinel 0xffff) and clears the pending slot. -/
theorem set_vect_two_phase_commit (setup_part : Nat → Resource → Resource)
    (s s' : VMState) (hvect : op_set_set_vect s = .ok s')
    (hnp : s.requested_next_part = none) :
    (∀ i, (s'.threads i).pc = (s.threads i).pc
      ∧ (s'.threads i).is_channel_active_current
          = (s.threads i).is_channel_active_current
      ∧ (s'.threads i).is_channel_active_requested
          = (s.threads i).is_channel_active_requested
      ∧ threadRuns s' i = threadRuns s i)
    ∧ (∀ i : Fin NUM_THREADS, (i : Nat) ≠ s.resource.read_byte s.script_ptr →
        (s'.threads i).requested_pc_offset = (s.threads i).requested_pc_offset)
    ∧ (∀ i : Fin NUM_THREADS, (i : Nat) = s.resource.read_byte s.script_ptr →
        (s'.threads i).requested_pc_offset
          = some (s.resource.read_word (s.script_ptr + 1)))
    ∧ (∀ i, ((check_thread_requests setup_part s).threads i).is_channel_active_current
          = (s.threads i).is_channel_active_requested
      ∧ ((check_thread_requests setup_part s).threads i).requested_pc_offset = none
      ∧ ((check_thread_requests setup_part s).threads i).pc =
          (match (s.threads i).requested_pc_offset with
           | some pc_offset =>
              if pc_offset = SET_INACTIVE_THREAD then INACTIVE_THREAD else pc_offset
           | none => (s.threads i).pc)) := by
  simp only [op_set_set_vect, VMState.fetch_byte, VMState.fetch_word] at hvect
  split at hvect
  next h =>
    injection hvect with hvect
    subst hvect
    refine ⟨fun i => ?_, fun i hi => ?_, fun i hi => ?_, fun i => ?_⟩
    · by_cases hi : i = (⟨s.resource.read_byte s.script_ptr, h⟩ : Fin NUM_THREADS)
      · subst hi
        refine ⟨?_, ?_, ?_, ?_⟩ <;>
          simp only [threadRuns, currentRunnable, Function.update_same]
      · refine ⟨?_, ?_, ?_, ?_⟩ <;>
          simp only [threadRuns, currentRunnable, Function.update_noteq hi]
    · have hne : i ≠ (⟨s.resource.read_byte s.script_ptr, h⟩ : Fin NUM_THREADS) :=
        fun hh => hi (congrArg Fin.val hh)
      simp only [Function.update_noteq hne]
    · have he : i = (⟨s.resource.read_byte s.script_ptr, h⟩ : Fin NUM_THREADS) :=
        Fin.ext hi
      subst he
      simp only [Function.update_same]
    · rw [check_thread_requests_threads setup_part s hnp i]
      rcases hreq : (s.threads i).requested_pc_offset with _ | pc_offset <;>
        simp [commitThread, hreq]
  next h => exact absurd hvect (by simp)

/-- Witness for C2: on the fresh state (bytecode all zero, so the request
targets thread 0 with offset 0) the staging succeeds and leaves every
thread's program counter unchanged, and the commit step leaves thread 0
inactive. -/
theorem set_vect_two_phase_commit_witness :
    ∃ s', op_set_set_vect base_state = .ok s'
      ∧ ∀ i, (s'.threads i).pc = (base_state.threads i).pc :=
  ⟨_, rfl, fun i =>
    (((set_vect_two_phase_commit (fun _ r => r) base_state _ rfl rfl).1) i).1⟩

/-- Executing a concatenation of call-stack instruction sequences is
sequential composition. -/
lemma exec_ops_append (l1 l2 : List CallRetOp) (s : VMState) :
    exec_ops (l1 ++ l2) s =
      match exec_ops l1 s with
      | .ok s1 => exec_ops l2 s1
      | .error e => .error e := by
  induction l1 generalizing s with
  | nil => rfl
  | cons o l ih =>
    simp only [List.cons_append, exec_ops]
    cases exec_op o s with
    | ok s1 => exact ih s1
    | error e => rfl

/-- A successful `op_call` pushes `cursor + 2 - seg_bytecode` at the old
stack pointer, increments the stack pointer, and leaves the resource and
the stack below the old pointer unchanged. -/
lemma op_call_frame {s s' : VMState} (h : op_call s = .ok s') :
    s'.stack_ptr = s.stack_ptr + 1
    ∧ s'.resource = s.resource
    ∧ s'.script_stack_calls s.stack_ptr = s.script_ptr + 2 - s.resource.seg_bytecode
    ∧ ∀ i, i ≠ s.stack_ptr → s'.script_stack_calls i = s.script_stack_calls i := by
  simp only [op_call, VMState.fetch_word] at h
  split at h
  · split at h
    · cases h
    · injection h with h
      subst h
      exact ⟨rfl, rfl, Function.update_same _ _ _,
        fun i hi => Function.update_noteq hi _ _⟩
  · cases h

/-- A successful `op_ret` decrements the stack pointer and jumps to
`seg_bytecode` plus the popped slot, leaving the resource and the whole
stack array unchanged. -/
lemma op_ret_frame {s s' : VMState} (h : op_ret s = .ok s') :
    s.stack_ptr = s'.stack_ptr + 1
    ∧ s'.resource = s.resource
    ∧ s'.script_stack_calls = s.script_stack_calls
    ∧ s'.script_ptr = s.resource.seg_bytecode + s.script_stack_calls (s.stack_ptr - 1) := by
  simp only [op_ret] at h
  split at h
  · cases h
  · injection h with h
    subst h
    refine ⟨?_, rfl, rfl, rfl⟩
    show s.stack_ptr = s.stack_ptr - 1 + 1
    omega

/-- Executing a balanced call/ret sequence preserves the stack pointer,
the resource, and every stack slot below the initial stack pointer. -/
lemma balanced_frame {l : List CallRetOp} (hbal : Balanced l) :
    ∀ s s', exec_ops l s = .ok s' →
      s'.stack_ptr = s.stack_ptr
      ∧ s'.resource = s.resource
      ∧ ∀ i, i < s.stack_ptr → s'.script_stack_calls i = s.script_stack_calls i := by
  induction hbal with
  | nil =>
    intro s s' h
    simp only [exec_ops, Except.ok.injEq] at h
    subst h
    exact ⟨rfl, rfl, fun i _ => rfl⟩
  | @wrap l hl ih =>
    intro s s' h
    simp only [exec_ops, exec_op] at h
    cases hc : op_call s with
    | error e => simp [hc] at h
    | ok t =>
      simp only [hc] at h
      rw [exec_ops_append] at h
      cases hm : exec_ops l t with
      | error e => simp [hm] at h
      | ok u =>
        simp only [hm, exec_ops, exec_op] at h
        cases hr : op_ret u with
        | error e => simp [hr] at h
        | ok v =>
          simp only [hr, Except.ok.injEq] at h
          subst h
          obtain ⟨c1, c2, _, c4⟩ := op_call_frame hc
          obtain ⟨m1, m2, m3⟩ := ih t u hm
          obtain ⟨r1, r2, r3, _⟩ := op_ret_frame hr
          refine ⟨by omega, by rw [r2, m2, c2], fun i hi => ?_⟩
          rw [r3, m3 i (by omega), c4 i (by omega)]
  | @append l1 l2 _ _ ih1 ih2 =>
    intro s s' h
    rw [exec_ops_append] at h
    cases hm : exec_ops l1 s with
    | error e => simp [hm] at h
    | ok t =>
      simp only [hm] at h
      obtain ⟨a1, a2, a3⟩ := ih1 s t hm
      obtain ⟨b1, b2, b3⟩ := ih2 t s' h
      refine ⟨by omega, by rw [b2, a2], fun i hi => ?_⟩
      rw [b3 i (by omega), a3 i hi]

/-- C7: call/return round trip.  A `call` pushes the cursor (minus the
bytecode segment base) after consuming its 2-byte operand; after any
balanced sequence of intervening call/ret pairs, the matching `ret` pops
it and adds the base back, restoring the cursor to the instruction
immediately after the original call's operand. -/
theorem call_ret_round_trip (s s0 s1 s2 : VMState) (l : List CallRetOp)
    (hbal : Balanced l)
    (hseg : s.resource.seg_bytecode ≤ s.script_ptr)
    (hcall : op_call s = .ok s0)
    (hmid : exec_ops l s0 = .ok s1)
    (hret : op_ret s1 = .ok s2) :
    s2.script_ptr = s.script_ptr + 2 := by
  obtain ⟨c1, c2, c3, _⟩ := op_call_frame hcall
  obtain ⟨m1, m2, m3⟩ := balanced_frame hbal s0 s1 hmid
  obtain ⟨r1, r2, r3, r4⟩ := op_ret_frame hret
  have hsp : s1.stack_ptr - 1 = s.stack_ptr := by omega
  rw [r4, m2, c2, hsp, m3 s.stack_ptr (by omega), c3]
  omega

/-- Witness for C7: a call from cursor 10 over segment base 0 followed
immediately by a return lands back on cursor 12. -/
theorem call_ret_round_trip_witness :
    ∃ s0 s1 s2, op_call rt_state = .ok s0 ∧ exec_ops [] s0 = .ok s1
      ∧ op_ret s1 = .ok s2 ∧ s2.script_ptr = rt_state.script_ptr + 2 :=
  ⟨_, _, _, rfl, rfl, rfl,
    call_ret_round_trip rt_state _ _ _ [] Balanced.nil (Nat.zero_le _) rfl rfl rfl⟩

end AnotherWorld
